import Mathlib

/-!
Verification development for the pystencils-sfg composition and rendering
engine.  The rendering code of the repository consists of Jinja2 templates
(`HeaderSourcePair.tmpl.h` / `HeaderSourcePair.tmpl.cpp` and the older
`BasicCpu.tmpl.h` / `BasicCpu.tmpl.cpp`).  We embed each template as a pure
Lean function from a render context to the list of emitted text lines, using
the Jinja semantics with `trim_blocks` (block tags consume their trailing
newline; `-%}` additionally strips following whitespace), which matches the
generated fixtures (`test_classes.cpp`, `TestSequencing.cpp`).

Opaque inputs produced by the external collaborators (formatted prelude
comment, kernel definitions produced by `generate_kernel_definition`,
parameter lists produced by `generate_function_parameter_list`, class
declarations produced by `print_class_declaration`) are modelled as the line
lists / strings they contribute, exactly as the templates splice them.
-/

namespace PystencilsSfg

/-! ## Definitions: the embedded data model and renderers -/

/-- Opening curly brace character (used when building template literals). -/
def obrace : Char := '\x7b'

/-- Closing curly brace character. -/
def cbrace : Char := '\x7d'

/-- A run of `n` spaces. -/
def spaces (n : Nat) : String := String.mk (List.replicate n ' ')

/-- One kernel namespace of the render context: its name and, for each kernel
AST in it, the lines produced by the external `generate_kernel_definition`
filter (opaque to the engine). -/
structure KernelNamespace where
  name : String
  asts : List (List String)
deriving DecidableEq

/-- One function of the render context.  `paramlist` is the text produced by
the external `generate_function_parameter_list` filter; `body` is the line
list produced by `generate_function_body` for a function that has a kernel
body, and `none` for a declaration-only function. -/
structure Function where
  name : String
  paramlist : String
  body : Option (List String)
deriving DecidableEq

/-- One class of the render context: its name, its methods (rendered like
functions, qualified by the class name), and the declaration lines produced
by the external `print_class_declaration` filter. -/
structure Class where
  class_name : String
  methods : List Function
  declLines : List String
deriving DecidableEq

/-- The render context of one `HeaderSourcePair` emission: the fields the two
templates read.  `prelude_comment` holds the lines of the already-formatted
prelude comment (the `format_prelude_comment` filter is an external
collaborator). -/
structure Module where
  prelude_comment : List String
  header_filename : String
  public_includes : List String
  private_includes : List String
  definitions : List String
  fq_namespace : Option String
  kernel_namespaces : List KernelNamespace
  classes : List Class
  functions : List Function
deriving DecidableEq

/-- The code-style configuration read by the templates
(`ctx.codestyle.indent_width`). -/
structure Config where
  indent_width : Nat
deriving DecidableEq

/-- Modelled from the spec: `generate_function_body` yields the kernel body
text of a function; a declaration-only function (no kernel body) contributes
empty text, which splits into the single empty line. -/
def fnBody (f : Function) : List String :=
  match f.body with
  | some bs => bs
  | none => [""]

/-- The Jinja filter `indent(w)` applied to one non-first line: blank lines are
left alone, other lines get a `w`-space prefix (the filter defaults are
`first=False, blank=False`). -/
def jinjaIndentLine (w : Nat) (l : String) : String :=
  if l = "" then l else spaces w ++ l

/-- The lines produced by the template fragment
`  {{ ... | generate_function_body | indent(w) }}`: the literal two spaces of
the template prefix the first body line, and the `indent` filter prefixes
every later non-blank line with `w` spaces. -/
def bodyLines (w : Nat) (bs : List String) : List String :=
  match bs with
  | [] => ["  "]
  | l :: ls => ("  " ++ l) :: ls.map (jinjaIndentLine w)

/-- Scope-opening line `namespace <n> {` as emitted by the
`HeaderSourcePair` templates. -/
def nsOpenLine (n : String) : String :=
  "namespace " ++ n ++ " " ++ String.mk [obrace]

/-- Scope-closing line `} // namespace <n>` as emitted by the templates. -/
def nsCloseLine (n : String) : String :=
  String.mk [cbrace] ++ " // namespace " ++ n

/-- Lines contributed by the `{% if fq_namespace is not none %}` opening
block. -/
def nsOpenLines : Option String → List String
  | none => []
  | some n => [nsOpenLine n]

/-- Lines contributed by the `{% if fq_namespace is not none %}` closing
block. -/
def nsCloseLines : Option String → List String
  | none => []
  | some n => [nsCloseLine n]

/-- Top rule of the section banner comments. -/
def bannerTop : String :=
  "/*************************************************************************************"

/-- Bottom rule of the section banner comments. -/
def bannerBot : String :=
  "*************************************************************************************/"

/-- The `Kernels` section banner of the definition template. -/
def kernelsBanner : List String :=
  [bannerTop, " *                                Kernels", bannerBot]

/-- The `Functions` section banner of the definition template. -/
def functionsBanner : List String :=
  [bannerTop, " *                                Functions", bannerBot]

/-- The `Class Methods` section banner of the definition template. -/
def classMethodsBanner : List String :=
  [bannerTop, " *                                Class Methods", bannerBot]

/-- Function signature line of the definition stream
(`void <name> ( <params> ) { ` — note the trailing space of the template). -/
def fnSigLine (f : Function) : String :=
  "void " ++ f.name ++ " ( " ++ f.paramlist ++ " ) " ++ String.mk [obrace] ++ " "

/-- Method signature line of the definition stream
(`void <Class>::<name> ( <params> ) { `). -/
def methodSigLine (cls : String) (f : Function) : String :=
  "void " ++ cls ++ "::" ++ f.name ++ " ( " ++ f.paramlist ++ " ) "
    ++ String.mk [obrace] ++ " "

/-- Function signature line of the declaration stream
(`void <name> ( <params> );`). -/
def fnDeclLine (f : Function) : String :=
  "void " ++ f.name ++ " ( " ++ f.paramlist ++ " );"

/-- Block emitted per iteration of the `functions` loop of
`HeaderSourcePair.tmpl.cpp` (lines 33–38 of the template). -/
def fnDef (w : Nat) (f : Function) : List String :=
  fnSigLine f :: bodyLines w (fnBody f) ++ [String.mk [cbrace], "", ""]

/-- Block emitted per iteration of the inner `cls.methods()` loop of
`HeaderSourcePair.tmpl.cpp` (lines 46–52). -/
def methodDef (w : Nat) (cls : String) (f : Function) : List String :=
  methodSigLine cls f :: bodyLines w (fnBody f) ++ [String.mk [cbrace], "", ""]

/-- Block emitted per iteration of the `kernel_namespaces` loop of
`HeaderSourcePair.tmpl.cpp` (lines 19–27). -/
def knsBlock (k : KernelNamespace) : List String :=
  nsOpenLine k.name :: "" :: k.asts.flatten ++ ["", nsCloseLine k.name]

/-- Rendering of `HeaderSourcePair.tmpl.h` (the declaration stream): the
template read top to bottom under `trim_blocks` semantics. -/
def renderHeader (m : Module) : List String :=
  m.prelude_comment ++ ["", "#pragma once", "", "#include <cstdint>", ""]
    ++ m.public_includes
    ++ [""]
    ++ m.definitions
    ++ ["", "#define RESTRICT __restrict__", ""]
    ++ nsOpenLines m.fq_namespace
    ++ [""]
    ++ (m.classes.map (·.declLines)).flatten
    ++ [""]
    ++ m.functions.map fnDeclLine
    ++ [""]
    ++ nsCloseLines m.fq_namespace

/-- Rendering of `HeaderSourcePair.tmpl.cpp` (the definition stream): the
template read top to bottom under `trim_blocks` semantics; the two
`{% endfor -%}` tags (template lines 39 and 53) strip the blank line that
follows them. -/
def renderSource (m : Module) (cfg : Config) : List String :=
  m.prelude_comment
    ++ ["", "#include \"" ++ m.header_filename ++ "\"", ""]
    ++ m.private_includes
    ++ ["", "#define FUNC_PREFIX inline", ""]
    ++ nsOpenLines m.fq_namespace
    ++ [""]
    ++ kernelsBanner
    ++ [""]
    ++ (m.kernel_namespaces.map knsBlock).flatten
    ++ [""]
    ++ functionsBanner
    ++ [""]
    ++ (m.functions.map (fnDef cfg.indent_width)).flatten
    ++ classMethodsBanner
    ++ [""]
    ++ (m.classes.map
        (fun c => (c.methods.map (methodDef cfg.indent_width c.class_name)).flatten)).flatten
    ++ nsCloseLines m.fq_namespace
    ++ [""]

/-- The full render of one module: the paired declaration and definition
texts, as line lists. -/
def render (m : Module) (cfg : Config) : List String × List String :=
  (renderHeader m, renderSource m cfg)

/-- Render context of the older `BasicCpu` template pair. -/
structure BasicCpuCtx where
  basename : String
  root_namespace : String
  fq_namespace : Option String
  public_includes : List String
  kernel_namespaces : List KernelNamespace
  functions : List Function
deriving DecidableEq

/-- Kernel-namespace block of `BasicCpu.tmpl.cpp` (note: no space before the
opening brace in this template generation). -/
def basicKnsBlock (k : KernelNamespace) : List String :=
  ("namespace " ++ k.name ++ String.mk [obrace]) :: "" :: k.asts.flatten
    ++ ["", nsCloseLine k.name]

/-- Function-definition block of `BasicCpu.tmpl.cpp` (lines 25–29): fixed
`indent(2)`, no blank lines inside the loop. -/
def basicFnDef (f : Function) : List String :=
  fnSigLine f :: bodyLines 2 (fnBody f) ++ [String.mk [cbrace]]

/-- Rendering of `BasicCpu.tmpl.h`. -/
def renderBasicCpuHeader (ctx : BasicCpuCtx) : List String :=
  ["#pragma once", "", "#include <cstdint>", ""]
    ++ ctx.public_includes
    ++ ["", "#define RESTRICT __restrict__", ""]
    ++ nsOpenLines ctx.fq_namespace
    ++ [""]
    ++ ctx.functions.map fnDeclLine
    ++ [""]
    ++ nsCloseLines ctx.fq_namespace

/-- Rendering of `BasicCpu.tmpl.cpp`.  The `root_namespace` wrapper is
unconditional in this template generation. -/
def renderBasicCpuSource (ctx : BasicCpuCtx) : List String :=
  ["#include \"" ++ ctx.basename ++ ".h\"", ""]
    ++ ["#define FUNC_PREFIX inline", ""]
    ++ [nsOpenLine ctx.root_namespace, ""]
    ++ kernelsBanner
    ++ [""]
    ++ (ctx.kernel_namespaces.map basicKnsBlock).flatten
    ++ [""]
    ++ functionsBanner
    ++ [""]
    ++ (ctx.functions.map basicFnDef).flatten
    ++ [""]
    ++ [nsCloseLine ctx.root_namespace, ""]

/-- An empty module used by several witnesses. -/
def mEmpty : Module :=
  { prelude_comment := []
    header_filename := "Out.h"
    public_includes := []
    private_includes := []
    definitions := []
    fq_namespace := none
    kernel_namespaces := []
    classes := []
    functions := [] }

/-- Default configuration (`indent_width = 2`). -/
def cfg2 : Config := { indent_width := 2 }

/-- Modelled from the spec: the three append operations callers use to attach
artifacts to a module (`addKernelNamespace`, `addClass`, `addFunction`); the
composer code holding the three lists is not under `src/`, only the templates
that consume them. -/
inductive AddOp where
  | addKernelNamespace (k : KernelNamespace)
  | addClass (c : Class)
  | addFunction (f : Function)
deriving DecidableEq

/-- Kernel namespaces attached by an interleaved call sequence, in call
order. -/
def opsKernelNamespaces (ops : List AddOp) : List KernelNamespace :=
  ops.filterMap fun op =>
    match op with
    | .addKernelNamespace k => some k
    | _ => none

/-- Classes attached by an interleaved call sequence, in call order. -/
def opsClasses (ops : List AddOp) : List Class :=
  ops.filterMap fun op =>
    match op with
    | .addClass c => some c
    | _ => none

/-- Functions attached by an interleaved call sequence, in call order. -/
def opsFunctions (ops : List AddOp) : List Function :=
  ops.filterMap fun op =>
    match op with
    | .addFunction f => some f
    | _ => none

/-- Modelled from the spec: building a module from an interleaved sequence of
the three append operations keeps three separate lists, each in attachment
order (the templates then iterate these lists). -/
def buildModule (m0 : Module) (ops : List AddOp) : Module :=
  { m0 with
    kernel_namespaces := opsKernelNamespaces ops
    classes := opsClasses ops
    functions := opsFunctions ops }

/-- Method used in the C1 counterexample. -/
def methM : Function := { name := "m", paramlist := "", body := some ["x;"] }

/-- Class used in the C1 counterexample. -/
def clsC : Class := { class_name := "C", methods := [methM], declLines := ["class C;"] }

/-- Function used in the C1 counterexample. -/
def fnF : Function := { name := "f", paramlist := "", body := some ["y;"] }

/-- Module of the C1 counterexample: one class and one function inside a
namespace. -/
def mC1 : Module :=
  { mEmpty with
    fq_namespace := some ("demo")
    classes := [clsC]
    functions := [fnF] }

/-- Function of the C2 counterexample: a two-line body. -/
def fnB : Function := { name := "g", paramlist := "", body := some ["a", "b"] }

/-- Module of the C2 counterexample: one two-line-body function inside a
namespace (depth 1), so with the body block the depth of the claim is 2. -/
def mC2 : Module :=
  { mEmpty with fq_namespace := some ("pystencils"), functions := [fnB] }

/-- A declaration-only function: it has no kernel body. -/
def fnDeclOnly : Function := { name := "g", paramlist := "", body := none }

/-- Render context of the C3 counterexample: its single function is
declaration-only. -/
def ctxC3 : BasicCpuCtx :=
  { basename := "Out"
    root_namespace := "pystencils"
    fq_namespace := some ("pystencils")
    public_includes := []
    kernel_namespaces := []
    functions := [fnDeclOnly] }

/-- Visibility tag of an include request (spec §3: `{public, private}`). -/
inductive Visibility where
  | pub
  | priv
deriving DecidableEq

/-- Modelled from the spec: first-seen-order deduplication — the Include Set
component (`merge` preserves first-seen order) is not under `src/`; only the
templates that iterate the resulting lists are. -/
def dedupFirst : List String → List String
  | [] => []
  | x :: xs => x :: (dedupFirst xs).filter (fun s => decide (s ≠ x))

/-- Modelled from the spec: `partition(includes) -> (public, private)` —
the public component: all literals requested public, first-seen order,
deduplicated. -/
def modulePublicIncludes (reqs : List (String × Visibility)) : List String :=
  dedupFirst ((reqs.filter fun r => decide (r.2 = Visibility.pub)).map Prod.fst)

/-- Modelled from the spec: the private component of `partition` — literals
requested private, minus everything in the public component (public
visibility dominates). -/
def modulePrivateIncludes (reqs : List (String × Visibility)) : List String :=
  (dedupFirst ((reqs.filter fun r => decide (r.2 = Visibility.priv)).map Prod.fst)).filter
    (fun s => decide (s ∉ modulePublicIncludes reqs))

/-- Include requests of the C4 witness: the same literal requested public
and private. -/
def reqsW : List (String × Visibility) :=
  [("#include <vector>", Visibility.pub), ("#include <vector>", Visibility.priv)]

/-- Module of the C4 witness, with its include lists produced by the
spec-modelled partition. -/
def mC4 : Module :=
  { mEmpty with
    public_includes := modulePublicIncludes reqsW
    private_includes := modulePrivateIncludes reqsW }

/-- Character list of the opening-marker prefix `namespace `. -/
def nsPreChars : List Char := "namespace ".data

/-- Character list of the closing-marker prefix `} // namespace `. -/
def closePreChars : List Char := (String.mk [cbrace] ++ " // namespace ").data

/-- Drop leading spaces of a character list. -/
def dropSpacesL : List Char → List Char
  | [] => []
  | c :: r => if c = ' ' then dropSpacesL r else c :: r

/-- Parse a scope-open marker line `namespace <name> {` (also the brace-glued
`namespace <name>{` variant of `BasicCpu.tmpl.cpp`), returning the scope
name. -/
def openName? (l : String) : Option String :=
  if nsPreChars.isPrefixOf l.data then
    match (l.data.drop 10).reverse with
    | c :: rr => if c = obrace then some (String.mk (dropSpacesL rr).reverse) else none
    | [] => none
  else none

/-- Parse a scope-close marker line `} // namespace <name>`, returning the
name carried by the trailing comment. -/
def closeName? (l : String) : Option String :=
  if closePreChars.isPrefixOf l.data then some (String.mk (l.data.drop 15)) else none

/-- A scope marker occurring in a rendered text. -/
inductive Marker where
  | op (n : String)
  | cl (n : String)
deriving DecidableEq

/-- The marker (if any) carried by one rendered line. -/
def lineMarker (l : String) : Option Marker :=
  match openName? l with
  | some n => some (Marker.op n)
  | none =>
    match closeName? l with
    | some n => some (Marker.cl n)
    | none => none

/-- All scope markers of a rendered text, in order. -/
def markers (ls : List String) : List Marker := ls.filterMap lineMarker

/-- A list of lines none of which parses as a scope marker (the
well-formedness condition on the opaque inputs spliced into the streams). -/
def markerFree (ls : List String) : Prop := ∀ l ∈ ls, lineMarker l = none

instance (ls : List String) : Decidable (markerFree ls) :=
  inferInstanceAs (Decidable (∀ l ∈ ls, lineMarker l = none))

/-- A name with no trailing space (so that parsing its open marker recovers
it exactly). -/
def noTrailSpace (n : String) : Prop :=
  dropSpacesL n.data.reverse = n.data.reverse

instance (n : String) : Decidable (noTrailSpace n) :=
  inferInstanceAs (Decidable (_ = _))

/-- Stack-based balance check: every close marker matches the most recent
unmatched open marker and carries the name of that open; the stack ends empty. -/
def balancedFrom (stack : List String) : List Marker → Bool
  | [] => stack.isEmpty
  | Marker.op n :: ms => balancedFrom (n :: stack) ms
  | Marker.cl n :: ms =>
    match stack with
    | [] => false
    | t :: rest => if t = n then balancedFrom rest ms else false

/-- The fully-qualified name of the scope whose enclosing open-marker names,
innermost first, are `stack`. -/
def fqName (stack : List String) : String :=
  match stack.reverse with
  | [] => ""
  | s :: ss => ss.foldl (fun acc x => acc ++ "::" ++ x) s

/-- Stack-based check of the stronger condition of the claim: every close marker
carries the fully-qualified name of the scope it closes. -/
def fqBalancedFrom (stack : List String) : List Marker → Bool
  | [] => stack.isEmpty
  | Marker.op n :: ms => fqBalancedFrom (n :: stack) ms
  | Marker.cl n :: ms =>
    match stack with
    | [] => false
    | t :: rest => if n = fqName (t :: rest) then fqBalancedFrom rest ms else false

/-- Is the marker an open marker? -/
def isOpM : Marker → Bool
  | Marker.op _ => true
  | Marker.cl _ => false

/-- Is the marker a close marker? -/
def isClM : Marker → Bool
  | Marker.op _ => false
  | Marker.cl _ => true

/-- The two markers of one kernel-namespace block. -/
def knsMarkers (k : KernelNamespace) : List Marker :=
  [Marker.op k.name, Marker.cl k.name]

/-- The open marker (if any) of the optional root namespace wrapper. -/
def optOpen : Option String → List Marker
  | none => []
  | some n => [Marker.op n]

/-- The close marker (if any) of the optional root namespace wrapper. -/
def optClose : Option String → List Marker
  | none => []
  | some n => [Marker.cl n]

/-- Kernel namespace of the C5 counterexample (and of several witnesses). -/
def knsK : KernelNamespace := { name := "kernels", asts := [] }

/-- Module of the C5 counterexample: a kernel namespace nested inside the
root namespace `outer`. -/
def mC5 : Module :=
  { mEmpty with fq_namespace := some ("outer"), kernel_namespaces := [knsK] }

/-- Module of the C5/C8 witnesses: a kernel namespace, a function and a
class inside a root namespace. -/
def mC5w : Module :=
  { mEmpty with
    fq_namespace := some ("outer")
    kernel_namespaces := [knsK]
    classes := [clsC]
    functions := [fnF] }

/-- Module of the C8 witness: kernel namespace, class and function but no
root namespace. -/
def mC8 : Module :=
  { mEmpty with
    kernel_namespaces := [knsK]
    classes := [clsC]
    functions := [fnF] }

/-! ## Theorems -/

theorem map_sublist_flatten_of_head {α β : Type} (l : List α) (f : α → β)
    (g : α → List β) (h : ∀ x ∈ l, ∃ t, g x = f x :: t) :
    List.Sublist (l.map f) (l.map g).flatten := by
  induction l with
  | nil => simp
  | cons x xs ih =>
    obtain ⟨t, ht⟩ := h x (List.mem_cons_self x xs)
    simp only [List.map_cons, List.flatten_cons, ht, List.cons_append]
    exact List.Sublist.cons₂ _
      ((ih fun y hy => h y (List.mem_cons_of_mem _ hy)).trans
        (List.sublist_append_right t _))

theorem flatten_sublist_flatten {α β : Type} (l : List α) (g₁ g₂ : α → List β)
    (h : ∀ x ∈ l, List.Sublist (g₁ x) (g₂ x)) :
    List.Sublist (l.map g₁).flatten (l.map g₂).flatten := by
  induction l with
  | nil => simp
  | cons x xs ih =>
    simpa using (h x (by simp)).append (ih fun y hy => h y (by simp [hy]))

theorem flatten_decomp_of_mem {α β : Type} {l : List α} {x : α} (g : α → List β)
    (hx : x ∈ l) :
    ∃ pre post, (l.map g).flatten = pre ++ g x ++ post := by
  obtain ⟨s, t, rfl⟩ := List.append_of_mem hx
  exact ⟨(s.map g).flatten, (t.map g).flatten, by simp⟩

/-- C6: `render` is a deterministic pure function of `(module, config)`:
rendering contexts that agree on every field of the module and the
configuration yields byte-identical declaration and definition texts.  The
embedding is a total function with no other inputs — there is no hidden
global state, wall-clock time, or filesystem state anywhere in the
semantics of the templates. -/
theorem c6_render_deterministic (m₁ m₂ : Module) (c₁ c₂ : Config)
    (h1 : m₁.prelude_comment = m₂.prelude_comment)
    (h2 : m₁.header_filename = m₂.header_filename)
    (h3 : m₁.public_includes = m₂.public_includes)
    (h4 : m₁.private_includes = m₂.private_includes)
    (h5 : m₁.definitions = m₂.definitions)
    (h6 : m₁.fq_namespace = m₂.fq_namespace)
    (h7 : m₁.kernel_namespaces = m₂.kernel_namespaces)
    (h8 : m₁.classes = m₂.classes)
    (h9 : m₁.functions = m₂.functions)
    (hc : c₁.indent_width = c₂.indent_width) :
    render m₁ c₁ = render m₂ c₂ := by
  cases m₁; cases m₂; cases c₁; cases c₂
  simp_all

/-- Witness for C6 at a concrete module and configuration. -/
theorem c6_render_deterministic_witness :
    render mEmpty cfg2 = render mEmpty cfg2 :=
  c6_render_deterministic mEmpty mEmpty cfg2 cfg2
    rfl rfl rfl rfl rfl rfl rfl rfl rfl rfl

/-- C7: in both streams the prelude comment comes first; the declaration
stream then carries the public-include block, and the definition stream
carries the pairing `#include` of the paired header followed by the
private-include block. -/
theorem c7_prelude_then_include_blocks (m : Module) (cfg : Config) :
    (∃ rest, renderHeader m =
      m.prelude_comment ++ ["", "#pragma once", "", "#include <cstdint>", ""]
        ++ m.public_includes ++ rest)
    ∧ (∃ rest, renderSource m cfg =
      m.prelude_comment ++ ["", "#include \"" ++ m.header_filename ++ "\"", ""]
        ++ m.private_includes ++ rest) := by
  refine ⟨⟨[""] ++ m.definitions ++ ["", "#define RESTRICT __restrict__", ""]
      ++ nsOpenLines m.fq_namespace ++ [""]
      ++ (m.classes.map (·.declLines)).flatten ++ [""]
      ++ m.functions.map fnDeclLine ++ [""]
      ++ nsCloseLines m.fq_namespace, ?_⟩,
    ⟨["", "#define FUNC_PREFIX inline", ""] ++ nsOpenLines m.fq_namespace ++ [""]
      ++ kernelsBanner ++ [""]
      ++ (m.kernel_namespaces.map knsBlock).flatten ++ [""]
      ++ functionsBanner ++ [""]
      ++ (m.functions.map (fnDef cfg.indent_width)).flatten
      ++ classMethodsBanner ++ [""]
      ++ (m.classes.map
          (fun c => (c.methods.map (methodDef cfg.indent_width c.class_name)).flatten)).flatten
      ++ nsCloseLines m.fq_namespace ++ [""], ?_⟩⟩
  · simp [renderHeader]
  · simp [renderSource]

/-- C9: the declaration text begins, right after the prelude comment, with
`#pragma once` followed by the unconditional `#include <cstdint>`, and both
come before any caller-supplied public include; the same holds for the older
`BasicCpu` header template (which has no prelude). -/
theorem c9_pragma_once_cstdint_first (m : Module) (ctx : BasicCpuCtx) :
    (∃ rest, renderHeader m =
      m.prelude_comment ++ ["", "#pragma once", "", "#include <cstdint>", ""]
        ++ m.public_includes ++ rest)
    ∧ (∃ rest, renderBasicCpuHeader ctx =
      ["#pragma once", "", "#include <cstdint>", ""]
        ++ ctx.public_includes ++ rest) := by
  refine ⟨⟨[""] ++ m.definitions ++ ["", "#define RESTRICT __restrict__", ""]
      ++ nsOpenLines m.fq_namespace ++ [""]
      ++ (m.classes.map (·.declLines)).flatten ++ [""]
      ++ m.functions.map fnDeclLine ++ [""]
      ++ nsCloseLines m.fq_namespace, ?_⟩,
    ⟨["", "#define RESTRICT __restrict__", ""] ++ nsOpenLines ctx.fq_namespace
      ++ [""] ++ ctx.functions.map fnDeclLine ++ [""]
      ++ nsCloseLines ctx.fq_namespace, ?_⟩⟩
  · simp [renderHeader]
  · simp [renderBasicCpuHeader]

/-- C10: the definition text contains the `Kernels` and `Functions` section
banners unconditionally — they are emitted outside every loop, so they are
present (in this order) for every module, in particular for modules with
zero kernel namespaces or zero functions. -/
theorem c10_banners_unconditional (m : Module) (cfg : Config) :
    ∃ a b c, renderSource m cfg =
      a ++ kernelsBanner ++ b ++ functionsBanner ++ c := by
  refine ⟨m.prelude_comment ++ ["", "#include \"" ++ m.header_filename ++ "\"", ""]
      ++ m.private_includes ++ ["", "#define FUNC_PREFIX inline", ""]
      ++ nsOpenLines m.fq_namespace ++ [""],
    [""] ++ (m.kernel_namespaces.map knsBlock).flatten ++ [""],
    [""] ++ (m.functions.map (fnDef cfg.indent_width)).flatten
      ++ classMethodsBanner ++ [""]
      ++ (m.classes.map
          (fun c => (c.methods.map (methodDef cfg.indent_width c.class_name)).flatten)).flatten
      ++ nsCloseLines m.fq_namespace ++ [""], ?_⟩
  simp [renderSource]

theorem sublist_pre {α : Type} {s l : List α} (pre : List α)
    (h : List.Sublist s l) : List.Sublist s (pre ++ l) :=
  h.trans (List.sublist_append_right pre l)

theorem sublist_surround {α : Type} {s l : List α} (pre post : List α)
    (h : List.Sublist s l) : List.Sublist s (pre ++ l ++ post) := by
  rw [List.append_assoc]
  exact (h.trans (List.sublist_append_left l post)).trans
    (List.sublist_append_right pre (l ++ post))

/-- In the definition stream the groups appear in the order: kernel
namespace blocks, then function definitions, then class-method definitions,
each group in list order. -/
theorem source_group_order (m : Module) (cfg : Config) :
    List.Sublist
      ((m.kernel_namespaces.map fun k => nsOpenLine k.name)
        ++ m.functions.map fnSigLine
        ++ (m.classes.map fun c => c.methods.map (methodSigLine c.class_name)).flatten)
      (renderSource m cfg) := by
  have hK : List.Sublist (m.kernel_namespaces.map fun k => nsOpenLine k.name)
      ((m.kernel_namespaces.map knsBlock).flatten) :=
    map_sublist_flatten_of_head _ _ _ (fun k _ => ⟨_, rfl⟩)
  have hF : List.Sublist (m.functions.map fnSigLine)
      ((m.functions.map (fnDef cfg.indent_width)).flatten) :=
    map_sublist_flatten_of_head _ _ _ (fun f _ => ⟨_, rfl⟩)
  have hM : List.Sublist
      ((m.classes.map fun c => c.methods.map (methodSigLine c.class_name)).flatten)
      ((m.classes.map
        (fun c => (c.methods.map (methodDef cfg.indent_width c.class_name)).flatten)).flatten) :=
    flatten_sublist_flatten _ _ _
      (fun c _ => map_sublist_flatten_of_head _ _ _ (fun mth _ => ⟨_, rfl⟩))
  have h1 := sublist_pre
    (m.prelude_comment ++ ["", "#include \"" ++ m.header_filename ++ "\"", ""]
      ++ m.private_includes ++ ["", "#define FUNC_PREFIX inline", ""]
      ++ nsOpenLines m.fq_namespace ++ [""] ++ kernelsBanner ++ [""]) hK
  have h2 := sublist_pre ([""] ++ functionsBanner ++ [""]) hF
  have h3 := sublist_surround (classMethodsBanner ++ [""])
    (nsCloseLines m.fq_namespace ++ [""]) hM
  have htot := (h1.append h2).append h3
  simpa only [renderSource, List.append_assoc] using htot

/-- In the declaration stream the groups appear in the order: class
declarations, then function declarations, each group in list order. -/
theorem header_group_order (m : Module) :
    List.Sublist
      ((m.classes.map (·.declLines)).flatten ++ m.functions.map fnDeclLine)
      (renderHeader m) := by
  have h1 : List.Sublist ((m.classes.map (·.declLines)).flatten)
      ((m.classes.map (·.declLines)).flatten) := List.Sublist.refl _
  have h1' := sublist_pre
    (m.prelude_comment ++ ["", "#pragma once", "", "#include <cstdint>", ""]
      ++ m.public_includes ++ [""] ++ m.definitions
      ++ ["", "#define RESTRICT __restrict__", ""]
      ++ nsOpenLines m.fq_namespace ++ [""]) h1
  have h2 := sublist_surround [""] ([""] ++ nsCloseLines m.fq_namespace)
    (List.Sublist.refl (m.functions.map fnDeclLine))
  have htot := h1'.append h2
  simpa only [renderHeader, List.append_assoc] using htot

/-- C1 counterexample: the claim says that within a namespace the definition
stream renders Classes before Functions, but `HeaderSourcePair.tmpl.cpp`
renders the `functions` loop before the `classes`/methods loop: for the
module `mC1` the function definition `void f (  ) { ` occurs strictly before
the class-method definition `void C::m (  ) { `. -/
theorem c1_ordering_counterexample :
    fnSigLine fnF ∈ renderSource mC1 cfg2
    ∧ methodSigLine clsC.class_name methM ∈ renderSource mC1 cfg2
    ∧ (renderSource mC1 cfg2).indexOf (fnSigLine fnF)
        < (renderSource mC1 cfg2).indexOf (methodSigLine clsC.class_name methM) := by
  decide

/-- C1 (amended): however a caller interleaves the three append operations,
the declaration stream renders Classes then Functions, and the definition
stream renders KernelNamespace blocks, then Functions, then Class methods,
each group internally in attachment order. -/
theorem c1_ordering_amended (m0 : Module) (cfg : Config) (ops : List AddOp) :
    List.Sublist
      (((buildModule m0 ops).kernel_namespaces.map fun k => nsOpenLine k.name)
        ++ (buildModule m0 ops).functions.map fnSigLine
        ++ ((buildModule m0 ops).classes.map
            fun c => c.methods.map (methodSigLine c.class_name)).flatten)
      (renderSource (buildModule m0 ops) cfg)
    ∧ List.Sublist
      (((buildModule m0 ops).classes.map (·.declLines)).flatten
        ++ (buildModule m0 ops).functions.map fnDeclLine)
      (renderHeader (buildModule m0 ops)) :=
  ⟨source_group_order (buildModule m0 ops) cfg, header_group_order (buildModule m0 ops)⟩

/-- Every function of the module yields its full definition block as a
contiguous segment of the definition stream. -/
theorem renderSource_decomp_fn (m : Module) (cfg : Config) (f : Function)
    (hf : f ∈ m.functions) :
    ∃ pre post, renderSource m cfg = pre ++ fnDef cfg.indent_width f ++ post := by
  obtain ⟨p, q, h⟩ := flatten_decomp_of_mem (fnDef cfg.indent_width) hf
  refine ⟨m.prelude_comment ++ ["", "#include \"" ++ m.header_filename ++ "\"", ""]
      ++ m.private_includes ++ ["", "#define FUNC_PREFIX inline", ""]
      ++ nsOpenLines m.fq_namespace ++ [""] ++ kernelsBanner ++ [""]
      ++ (m.kernel_namespaces.map knsBlock).flatten ++ [""]
      ++ functionsBanner ++ [""] ++ p,
    q ++ classMethodsBanner ++ [""]
      ++ (m.classes.map
          (fun c => (c.methods.map (methodDef cfg.indent_width c.class_name)).flatten)).flatten
      ++ nsCloseLines m.fq_namespace ++ [""], ?_⟩
  simp [renderSource, h, List.append_assoc]

/-- C2 counterexample: for `mC2` with `indent_width = 2`, the claim predicts
every body line carries a prefix of `depth × indent_width = 2 × 2 = 4`
spaces (one entered namespace plus the body block), i.e. the line `    a`.
The rendered definition instead carries the single fixed indentation level of
the template: the line `  a` (2 spaces), and no line `    a` exists. -/
theorem c2_indentation_counterexample :
    ("  a") ∈ renderSource mC2 cfg2 ∧ ¬ (("    a") ∈ renderSource mC2 cfg2) := by
  decide

/-- C2 (amended): a `k`-line function body is rendered as one contiguous
block in the definition stream; the first body line is prefixed by the
fixed two literal spaces of the template and every later non-blank body line by
`indent_width` spaces (blank lines stay empty; namespace depth adds
nothing).  Relative indentation is preserved — each line only gains a
prefix — and when `indent_width = 2` and no body line is blank the prefix is
uniform across all `k` lines. -/
theorem c2_indentation_amended (m : Module) (cfg : Config) (f : Function)
    (hf : f ∈ m.functions) (l : String) (ls : List String)
    (hb : f.body = some (l :: ls)) :
    (∃ pre post, renderSource m cfg = pre ++ fnDef cfg.indent_width f ++ post)
    ∧ fnDef cfg.indent_width f
        = fnSigLine f :: ("  " ++ l) :: ls.map (jinjaIndentLine cfg.indent_width)
          ++ [String.mk [cbrace], "", ""]
    ∧ (∀ s ∈ ls, s ≠ "" → jinjaIndentLine cfg.indent_width s = spaces cfg.indent_width ++ s)
    ∧ (cfg.indent_width = 2 → (∀ s ∈ l :: ls, s ≠ "") →
        ("  " ++ l) :: ls.map (jinjaIndentLine cfg.indent_width)
          = (l :: ls).map (fun s => "  " ++ s)) := by
  refine ⟨renderSource_decomp_fn m cfg f hf, ?_, ?_, ?_⟩
  · simp [fnDef, fnBody, hb, bodyLines]
  · intro s _ hne
    simp [jinjaIndentLine, hne]
  · intro hw hnb
    have hsp : spaces 2 = "  " := by decide
    have : ∀ s ∈ ls, jinjaIndentLine cfg.indent_width s = "  " ++ s := by
      intro s hs
      rw [hw]
      simp [jinjaIndentLine, hnb s (List.mem_cons_of_mem _ hs), hsp]
    simp [List.map_congr_left this]

/-- Witness for C2 (amended) at the concrete module `mC2`. -/
theorem c2_indentation_amended_witness :
    (∃ pre post, renderSource mC2 cfg2 = pre ++ fnDef cfg2.indent_width fnB ++ post)
    ∧ fnDef cfg2.indent_width fnB
        = fnSigLine fnB :: ("  " ++ "a") :: (["b"].map (jinjaIndentLine cfg2.indent_width))
          ++ [String.mk [cbrace], "", ""]
    ∧ (∀ s ∈ ["b"], s ≠ "" → jinjaIndentLine cfg2.indent_width s = spaces cfg2.indent_width ++ s)
    ∧ (cfg2.indent_width = 2 → (∀ s ∈ ("a" :: ["b"]), s ≠ "") →
        ("  " ++ "a") :: (["b"].map (jinjaIndentLine cfg2.indent_width))
          = (("a" :: ["b"]).map (fun s => "  " ++ s))) :=
  c2_indentation_amended mC2 cfg2 fnB (by decide) ("a") ["b"] rfl

/-- C3 counterexample: the claim says a declaration-only function (no
KernelBody) gets an entry in the declaration stream only, but the
`functions` loop of `BasicCpu.tmpl.cpp` is unconditional: for `ctxC3`, whose
single function has no body, the definition stream still contains the
definition header of that function `void g (  ) { `. -/
theorem c3_declonly_counterexample :
    fnDeclOnly.body = none
    ∧ fnSigLine fnDeclOnly ∈ renderBasicCpuSource ctxC3 := by
  decide

/-- C3 (amended): every function of the render context — with or without a
kernel body — receives exactly the `;`-terminated signature in the
declaration stream, and also receives a full definition block in the
definition stream; the templates make no provision for suppressing the
definition of a declaration-only function. -/
theorem c3_declonly_amended (ctx : BasicCpuCtx) (f : Function)
    (hf : f ∈ ctx.functions) :
    (∃ pre post, renderBasicCpuHeader ctx = pre ++ ctx.functions.map fnDeclLine ++ post)
    ∧ (∃ pre post, renderBasicCpuSource ctx = pre ++ basicFnDef f ++ post) := by
  constructor
  · refine ⟨["#pragma once", "", "#include <cstdint>", ""] ++ ctx.public_includes
      ++ ["", "#define RESTRICT __restrict__", ""]
      ++ nsOpenLines ctx.fq_namespace ++ [""],
      [""] ++ nsCloseLines ctx.fq_namespace, ?_⟩
    simp [renderBasicCpuHeader, List.append_assoc]
  · obtain ⟨p, q, h⟩ := flatten_decomp_of_mem basicFnDef hf
    refine ⟨["#include \"" ++ ctx.basename ++ ".h\"", ""]
      ++ ["#define FUNC_PREFIX inline", ""]
      ++ [nsOpenLine ctx.root_namespace, ""]
      ++ kernelsBanner ++ [""]
      ++ (ctx.kernel_namespaces.map basicKnsBlock).flatten ++ [""]
      ++ functionsBanner ++ [""] ++ p,
      q ++ [""] ++ [nsCloseLine ctx.root_namespace, ""], ?_⟩
    simp [renderBasicCpuSource, h, List.append_assoc]

/-- Witness for C3 (amended) at the concrete context `ctxC3`. -/
theorem c3_declonly_amended_witness :
    (∃ pre post, renderBasicCpuHeader ctxC3 = pre ++ ctxC3.functions.map fnDeclLine ++ post)
    ∧ (∃ pre post, renderBasicCpuSource ctxC3 = pre ++ basicFnDef fnDeclOnly ++ post) :=
  c3_declonly_amended ctxC3 fnDeclOnly (by decide)

theorem mem_dedupFirst {a : String} : ∀ {l : List String}, a ∈ dedupFirst l ↔ a ∈ l := by
  intro l
  induction l with
  | nil => simp [dedupFirst]
  | cons x xs ih =>
    by_cases hax : a = x
    · subst hax
      simp [dedupFirst]
    · simp [dedupFirst, List.mem_filter, hax, ih]

theorem nodup_dedupFirst : ∀ l : List String, (dedupFirst l).Nodup := by
  intro l
  induction l with
  | nil => simp [dedupFirst]
  | cons x xs ih =>
    simp only [dedupFirst, List.nodup_cons]
    refine ⟨fun hx => ?_, ih.filter _⟩
    have := (List.mem_filter.mp hx).2
    simp at this

/-- C4: for an include literal requested both public and private within one
module, the rendered public include block of the declaration text carries it
exactly once, the private include block of the definition text does not
carry it at all, and the two blocks are rendered contiguously inside the two
streams. -/
theorem c4_include_dominance (m : Module) (cfg : Config)
    (reqs : List (String × Visibility)) (i : String)
    (hpub : m.public_includes = modulePublicIncludes reqs)
    (hpriv : m.private_includes = modulePrivateIncludes reqs)
    (h1 : (i, Visibility.pub) ∈ reqs)
    (_h2 : (i, Visibility.priv) ∈ reqs) :
    m.public_includes.count i = 1
    ∧ i ∉ m.private_includes
    ∧ (∃ pre post, renderHeader m = pre ++ m.public_includes ++ post)
    ∧ (∃ pre post, renderSource m cfg = pre ++ m.private_includes ++ post) := by
  have hmem : i ∈ modulePublicIncludes reqs := by
    refine mem_dedupFirst.mpr (List.mem_map.mpr ⟨(i, Visibility.pub), ?_, rfl⟩)
    exact List.mem_filter.mpr ⟨h1, by simp⟩
  refine ⟨?_, ?_, ?_, ?_⟩
  · rw [hpub]
    exact List.count_eq_one_of_mem (nodup_dedupFirst _) hmem
  · rw [hpriv]
    intro hin
    have := (List.mem_filter.mp hin).2
    simp only [decide_eq_true_eq] at this
    exact this hmem
  · refine ⟨m.prelude_comment ++ ["", "#pragma once", "", "#include <cstdint>", ""],
      [""] ++ m.definitions ++ ["", "#define RESTRICT __restrict__", ""]
        ++ nsOpenLines m.fq_namespace ++ [""]
        ++ (m.classes.map (·.declLines)).flatten ++ [""]
        ++ m.functions.map fnDeclLine ++ [""]
        ++ nsCloseLines m.fq_namespace, ?_⟩
    simp [renderHeader, List.append_assoc]
  · refine ⟨m.prelude_comment ++ ["", "#include \"" ++ m.header_filename ++ "\"", ""],
      ["", "#define FUNC_PREFIX inline", ""] ++ nsOpenLines m.fq_namespace ++ [""]
        ++ kernelsBanner ++ [""]
        ++ (m.kernel_namespaces.map knsBlock).flatten ++ [""]
        ++ functionsBanner ++ [""]
        ++ (m.functions.map (fnDef cfg.indent_width)).flatten
        ++ classMethodsBanner ++ [""]
        ++ (m.classes.map
            (fun c => (c.methods.map (methodDef cfg.indent_width c.class_name)).flatten)).flatten
        ++ nsCloseLines m.fq_namespace ++ [""], ?_⟩
    simp [renderSource, List.append_assoc]

/-- Witness for C4 at the concrete request list `reqsW`. -/
theorem c4_include_dominance_witness :
    mC4.public_includes.count ("#include <vector>") = 1
    ∧ ("#include <vector>") ∉ mC4.private_includes
    ∧ (∃ pre post, renderHeader mC4 = pre ++ mC4.public_includes ++ post)
    ∧ (∃ pre post, renderSource mC4 cfg2 = pre ++ mC4.private_includes ++ post) :=
  c4_include_dominance mC4 cfg2 reqsW ("#include <vector>") rfl rfl
    (by decide) (by decide)

theorem isPrefixOf_append_self (p l : List Char) : p.isPrefixOf (p ++ l) = true := by
  induction p with
  | nil => simp [List.isPrefixOf]
  | cons a as ih => simp [List.isPrefixOf, ih]

theorem not_prefix_of_head_ne {a b : Char} {as bs : List Char} (h : a ≠ b) :
    (a :: as).isPrefixOf (b :: bs) = false := by
  simp [List.isPrefixOf, h]

theorem openName_nsOpenLine (n : String) (h : noTrailSpace n) :
    openName? (nsOpenLine n) = some n := by
  have hd : (nsOpenLine n).data = nsPreChars ++ (n.data ++ [' ', obrace]) := by
    simp [nsOpenLine, nsPreChars]
  have hlen : nsPreChars.length = 10 := by decide
  rw [openName?, hd, isPrefixOf_append_self, if_pos rfl, List.drop_left' hlen]
  simp only [List.reverse_append, List.reverse_cons, List.reverse_nil,
    List.nil_append, List.cons_append]
  have h2 : dropSpacesL (' ' :: n.data.reverse) = n.data.reverse := by
    simpa [dropSpacesL] using h
  rw [if_pos trivial, h2, List.reverse_reverse]

theorem closeName_nsCloseLine (n : String) :
    closeName? (nsCloseLine n) = some n := by
  have hd : (nsCloseLine n).data = closePreChars ++ n.data := by
    simp [nsCloseLine, closePreChars]
  have hlen : closePreChars.length = 15 := by decide
  rw [closeName?, hd, isPrefixOf_append_self, if_pos rfl, List.drop_left' hlen]

theorem lineMarker_none_of_head {l : String} {c : Char} {cs : List Char}
    (hd : l.data = c :: cs) (h1 : c ≠ 'n') (h2 : c ≠ cbrace) :
    lineMarker l = none := by
  have hpre : nsPreChars = 'n' :: "amespace ".data := rfl
  have hpre2 : closePreChars = cbrace :: " // namespace ".data := rfl
  have ho : openName? l = none := by
    rw [openName?, hd, hpre, not_prefix_of_head_ne (fun hh => h1 hh.symm)]
    simp
  have hc : closeName? l = none := by
    rw [closeName?, hd, hpre2, not_prefix_of_head_ne (fun hh => h2 hh.symm)]
    simp
  rw [lineMarker, ho, hc]

theorem lineMarker_str_append {p : String} {c : Char} {cs : List Char}
    (hp : p.data = c :: cs) (h1 : c ≠ 'n') (h2 : c ≠ cbrace) (s : String) :
    lineMarker (p ++ s) = none := by
  refine @lineMarker_none_of_head (p ++ s) c (cs ++ s.data) ?_ h1 h2
  rw [String.data_append, hp]
  rfl

theorem lineMarker_nsOpenLine (n : String) (h : noTrailSpace n) :
    lineMarker (nsOpenLine n) = some (Marker.op n) := by
  rw [lineMarker, openName_nsOpenLine n h]

theorem openName_nsCloseLine (n : String) : openName? (nsCloseLine n) = none := by
  have hd : (nsCloseLine n).data = cbrace :: (" // namespace ".data ++ n.data) := by
    simp [nsCloseLine]
  rw [openName?, hd]
  have hpre : nsPreChars = 'n' :: "amespace ".data := rfl
  rw [hpre, not_prefix_of_head_ne (by decide)]
  simp

theorem lineMarker_nsCloseLine (n : String) :
    lineMarker (nsCloseLine n) = some (Marker.cl n) := by
  rw [lineMarker, openName_nsCloseLine n]
  simp [closeName_nsCloseLine n]

theorem lineMarker_empty : lineMarker ("") = none := by decide

theorem lineMarker_cb : lineMarker (String.mk [cbrace]) = none := by decide

theorem lineMarker_twosp : lineMarker ("  ") = none := by decide

theorem lineMarker_include_line (s : String) :
    lineMarker ("#include \"" ++ s ++ "\"") = none := by
  rw [String.append_assoc]
  exact lineMarker_str_append (p := "#include \"") rfl (by decide) (by decide) _

theorem lineMarker_fnSigLine (f : Function) : lineMarker (fnSigLine f) = none := by
  simp only [fnSigLine, String.append_assoc]
  exact lineMarker_str_append (p := "void ") rfl (by decide) (by decide) _

theorem lineMarker_methodSigLine (cls : String) (f : Function) :
    lineMarker (methodSigLine cls f) = none := by
  simp only [methodSigLine, String.append_assoc]
  exact lineMarker_str_append (p := "void ") rfl (by decide) (by decide) _

theorem lineMarker_fnDeclLine (f : Function) : lineMarker (fnDeclLine f) = none := by
  simp only [fnDeclLine, String.append_assoc]
  exact lineMarker_str_append (p := "void ") rfl (by decide) (by decide) _

theorem lineMarker_jinjaIndent (w : Nat) (s : String) (h : lineMarker s = none) :
    lineMarker (jinjaIndentLine w s) = none := by
  by_cases hs : s = ""
  · simpa [jinjaIndentLine, hs] using lineMarker_empty
  · rw [jinjaIndentLine, if_neg hs]
    cases w with
    | zero => exact h
    | succ k =>
      have hp : (spaces (k + 1)).data = ' ' :: List.replicate k ' ' := by
        simp [spaces, List.replicate_succ]
      exact lineMarker_str_append hp (by decide) (by decide) s

theorem markerFree_flatten (L : List (List String)) (h : ∀ a ∈ L, markerFree a) :
    markerFree L.flatten := by
  intro l hl
  obtain ⟨a, ha, hla⟩ := List.mem_flatten.mp hl
  exact h a ha l hla

theorem markerFree_bodyLines (w : Nat) (bs : List String) (h : markerFree bs) :
    markerFree (bodyLines w bs) := by
  cases bs with
  | nil =>
    intro l hl
    simp [bodyLines] at hl
    subst hl
    exact lineMarker_twosp
  | cons b bt =>
    intro l hl
    simp only [bodyLines, List.mem_cons, List.mem_map] at hl
    rcases hl with h1 | ⟨s, hs, rfl⟩
    · subst h1
      exact lineMarker_str_append (p := "  ") rfl (by decide) (by decide) b
    · exact lineMarker_jinjaIndent w s (h s (List.mem_cons_of_mem _ hs))

theorem markerFree_fnDef (w : Nat) (f : Function) (h : markerFree (fnBody f)) :
    markerFree (fnDef w f) := by
  intro l hl
  simp only [fnDef, List.mem_cons, List.mem_append] at hl
  rcases hl with (rfl | hb) | hc
  · exact lineMarker_fnSigLine f
  · exact markerFree_bodyLines w (fnBody f) h l hb
  · simp at hc
    rcases hc with rfl | rfl
    · exact lineMarker_cb
    · exact lineMarker_empty

theorem markerFree_methodDef (w : Nat) (cls : String) (f : Function)
    (h : markerFree (fnBody f)) : markerFree (methodDef w cls f) := by
  intro l hl
  simp only [methodDef, List.mem_cons, List.mem_append] at hl
  rcases hl with (rfl | hb) | hc
  · exact lineMarker_methodSigLine cls f
  · exact markerFree_bodyLines w (fnBody f) h l hb
  · simp at hc
    rcases hc with rfl | rfl
    · exact lineMarker_cb
    · exact lineMarker_empty

theorem markerFree_fnDeclLines (fs : List Function) :
    markerFree (fs.map fnDeclLine) := by
  intro l hl
  obtain ⟨f, _, rfl⟩ := List.mem_map.mp hl
  exact lineMarker_fnDeclLine f

theorem markers_append (a b : List String) :
    markers (a ++ b) = markers a ++ markers b :=
  List.filterMap_append a b lineMarker

theorem markers_eq_nil {ls : List String} (h : markerFree ls) : markers ls = [] :=
  List.filterMap_eq_nil_iff.mpr h

theorem markers_knsBlock (k : KernelNamespace)
    (ha : ∀ a ∈ k.asts, markerFree a) (hn : noTrailSpace k.name) :
    markers (knsBlock k) = knsMarkers k := by
  have hfl : List.filterMap lineMarker k.asts.flatten = [] :=
    markers_eq_nil (markerFree_flatten _ ha)
  simp [knsBlock, markers, knsMarkers, lineMarker_nsOpenLine k.name hn,
    lineMarker_empty, lineMarker_nsCloseLine, hfl]

theorem markers_kns_flatten (ks : List KernelNamespace)
    (h : ∀ k ∈ ks, (∀ a ∈ k.asts, markerFree a) ∧ noTrailSpace k.name) :
    markers ((ks.map knsBlock).flatten) = (ks.map knsMarkers).flatten := by
  induction ks with
  | nil => simp [markers]
  | cons k kt ih =>
    simp only [List.map_cons, List.flatten_cons, markers_append]
    rw [markers_knsBlock k (h k (by simp)).1 (h k (by simp)).2,
      ih fun x hx => h x (List.mem_cons_of_mem _ hx)]

theorem markers_nsOpenLines (o : Option String)
    (h : ∀ n, o = some n → noTrailSpace n) :
    markers (nsOpenLines o) = optOpen o := by
  cases o with
  | none => simp [nsOpenLines, optOpen, markers]
  | some n =>
    simp [nsOpenLines, optOpen, markers, lineMarker_nsOpenLine n (h n rfl)]

theorem markers_nsCloseLines (o : Option String) :
    markers (nsCloseLines o) = optClose o := by
  cases o with
  | none => simp [nsCloseLines, optClose, markers]
  | some n => simp [nsCloseLines, optClose, markers, lineMarker_nsCloseLine]

/-- Characterization of the scope markers of the definition stream: the
optional root wrapper around one open/close pair per kernel namespace. -/
theorem markers_renderSource (m : Module) (cfg : Config)
    (hpre : markerFree m.prelude_comment)
    (hpriv : markerFree m.private_includes)
    (hasts : ∀ k ∈ m.kernel_namespaces, ∀ a ∈ k.asts, markerFree a)
    (hknames : ∀ k ∈ m.kernel_namespaces, noTrailSpace k.name)
    (hfq : ∀ n, m.fq_namespace = some n → noTrailSpace n)
    (hfb : ∀ f ∈ m.functions, markerFree (fnBody f))
    (hmb : ∀ c ∈ m.classes, ∀ mt ∈ c.methods, markerFree (fnBody mt)) :
    markers (renderSource m cfg)
      = optOpen m.fq_namespace
        ++ (m.kernel_namespaces.map knsMarkers).flatten
        ++ optClose m.fq_namespace := by
  have h1 : markers m.prelude_comment = [] := markers_eq_nil hpre
  have h2 : markers ["", "#include \"" ++ m.header_filename ++ "\"", ""] = [] := by
    simp [markers, lineMarker_empty, lineMarker_include_line]
  have h3 : markers m.private_includes = [] := markers_eq_nil hpriv
  have h4 : markers ["", "#define FUNC_PREFIX inline", ""] = [] := by decide
  have h5 := markers_nsOpenLines m.fq_namespace hfq
  have h6 : markers [""] = [] := by decide
  have h7 : markers kernelsBanner = [] := by decide
  have h8 := markers_kns_flatten m.kernel_namespaces
    (fun k hk => ⟨hasts k hk, hknames k hk⟩)
  have h9 : markers functionsBanner = [] := by decide
  have h10 : markers ((m.functions.map (fnDef cfg.indent_width)).flatten) = [] := by
    refine markers_eq_nil (markerFree_flatten _ ?_)
    intro a ha
    obtain ⟨f, hf, rfl⟩ := List.mem_map.mp ha
    exact markerFree_fnDef _ f (hfb f hf)
  have h11 : markers classMethodsBanner = [] := by decide
  have h12 : markers ((m.classes.map
      (fun c => (c.methods.map (methodDef cfg.indent_width c.class_name)).flatten)).flatten)
      = [] := by
    refine markers_eq_nil (markerFree_flatten _ ?_)
    intro a ha
    obtain ⟨c, hc, rfl⟩ := List.mem_map.mp ha
    refine markerFree_flatten _ ?_
    intro b hb
    obtain ⟨mt, hmt, rfl⟩ := List.mem_map.mp hb
    exact markerFree_methodDef _ _ mt (hmb c hc mt hmt)
  have h13 := markers_nsCloseLines m.fq_namespace
  simp only [renderSource, markers_append, h1, h2, h3, h4, h5, h6, h7, h8, h9,
    h10, h11, h12, h13, List.nil_append, List.append_nil, List.append_assoc]

/-- Characterization of the scope markers of the declaration stream: only
the optional root wrapper. -/
theorem markers_renderHeader (m : Module)
    (hpre : markerFree m.prelude_comment)
    (hpub : markerFree m.public_includes)
    (hdefs : markerFree m.definitions)
    (hcls : ∀ c ∈ m.classes, markerFree c.declLines)
    (hfq : ∀ n, m.fq_namespace = some n → noTrailSpace n) :
    markers (renderHeader m) = optOpen m.fq_namespace ++ optClose m.fq_namespace := by
  have h1 : markers m.prelude_comment = [] := markers_eq_nil hpre
  have h2 : markers ["", "#pragma once", "", "#include <cstdint>", ""] = [] := by decide
  have h3 : markers m.public_includes = [] := markers_eq_nil hpub
  have h4 : markers [""] = [] := by decide
  have h5 : markers m.definitions = [] := markers_eq_nil hdefs
  have h6 : markers ["", "#define RESTRICT __restrict__", ""] = [] := by decide
  have h7 := markers_nsOpenLines m.fq_namespace hfq
  have h8 : markers ((m.classes.map (·.declLines)).flatten) = [] := by
    refine markers_eq_nil (markerFree_flatten _ ?_)
    intro a ha
    obtain ⟨c, hc, rfl⟩ := List.mem_map.mp ha
    exact hcls c hc
  have h9 : markers (m.functions.map fnDeclLine) = [] :=
    markers_eq_nil (markerFree_fnDeclLines m.functions)
  have h10 := markers_nsCloseLines m.fq_namespace
  simp only [renderHeader, markers_append, h1, h2, h3, h4, h5, h6, h7, h8, h9,
    h10, List.nil_append, List.append_nil, List.append_assoc]

theorem bal_pairs (ks : List KernelNamespace) :
    ∀ (s : List String) (rest : List Marker),
      balancedFrom s ((ks.map knsMarkers).flatten ++ rest) = balancedFrom s rest := by
  induction ks with
  | nil => intro s rest; simp
  | cons k kt ih =>
    intro s rest
    simp only [List.map_cons, List.flatten_cons, knsMarkers, List.cons_append,
      List.append_assoc, balancedFrom]
    simpa using ih s rest

theorem bal_shape (o : Option String) (ks : List KernelNamespace) :
    balancedFrom [] (optOpen o ++ (ks.map knsMarkers).flatten ++ optClose o) = true := by
  cases o with
  | none =>
    simpa [optOpen, optClose, balancedFrom] using bal_pairs ks [] []
  | some n =>
    simp only [optOpen, optClose, List.cons_append, List.nil_append,
      List.append_assoc, balancedFrom]
    simp only [List.append_eq, List.nil_append]
    rw [bal_pairs ks [n] [Marker.cl n]]
    simp [balancedFrom]

theorem countP_pairs (ks : List KernelNamespace) :
    ((ks.map knsMarkers).flatten).countP isOpM
      = ((ks.map knsMarkers).flatten).countP isClM := by
  induction ks with
  | nil => simp
  | cons k kt ih =>
    simp [knsMarkers, List.countP_cons, isOpM, isClM, ih]

theorem countP_shape (o : Option String) (ks : List KernelNamespace) :
    (optOpen o ++ (ks.map knsMarkers).flatten ++ optClose o).countP isOpM
      = (optOpen o ++ (ks.map knsMarkers).flatten ++ optClose o).countP isClM := by
  cases o with
  | none => simpa [optOpen, optClose] using countP_pairs ks
  | some n =>
    have := countP_pairs ks
    simp [optOpen, optClose, List.countP_append, List.countP_cons, isOpM, isClM, this]

/-- C5 counterexample: in the definition stream of `mC5` the markers are
stack-balanced, but the close marker of the nested `kernels` scope carries
the trailing comment `kernels` — its own segment name — and not the
fully-qualified name `outer::kernels` the claim requires, so the check that
every close carries the fully-qualified name of its scope fails. -/
theorem c5_scope_balance_counterexample :
    nsCloseLine ("kernels") ∈ renderSource mC5 cfg2
    ∧ balancedFrom [] (markers (renderSource mC5 cfg2)) = true
    ∧ fqBalancedFrom [] (markers (renderSource mC5 cfg2)) = false := by
  decide

/-- C5 (amended): in every rendered declaration and definition text (with
the opaque spliced inputs free of marker-shaped lines and scope names free
of trailing spaces), the number of scope-open markers equals the number of
scope-close markers and the closes appear in exactly the reverse order of
their matching opens; each close marker carries the name its scope was
opened with (the segment name as written in the open marker), not in
general the fully-qualified name. -/
theorem c5_scope_balance_amended (m : Module) (cfg : Config)
    (hpre : markerFree m.prelude_comment)
    (hpub : markerFree m.public_includes)
    (hdefs : markerFree m.definitions)
    (hcls : ∀ c ∈ m.classes, markerFree c.declLines)
    (hpriv : markerFree m.private_includes)
    (hasts : ∀ k ∈ m.kernel_namespaces, ∀ a ∈ k.asts, markerFree a)
    (hknames : ∀ k ∈ m.kernel_namespaces, noTrailSpace k.name)
    (hfq : ∀ n, m.fq_namespace = some n → noTrailSpace n)
    (hfb : ∀ f ∈ m.functions, markerFree (fnBody f))
    (hmb : ∀ c ∈ m.classes, ∀ mt ∈ c.methods, markerFree (fnBody mt)) :
    (balancedFrom [] (markers (renderHeader m)) = true
      ∧ (markers (renderHeader m)).countP isOpM
          = (markers (renderHeader m)).countP isClM)
    ∧ (balancedFrom [] (markers (renderSource m cfg)) = true
      ∧ (markers (renderSource m cfg)).countP isOpM
          = (markers (renderSource m cfg)).countP isClM) := by
  have hH := markers_renderHeader m hpre hpub hdefs hcls hfq
  have hS := markers_renderSource m cfg hpre hpriv hasts hknames hfq hfb hmb
  rw [hH, hS]
  refine ⟨⟨?_, ?_⟩, ⟨?_, ?_⟩⟩
  · have := bal_shape m.fq_namespace []
    simpa using this
  · have := countP_shape m.fq_namespace []
    simpa using this
  · exact bal_shape m.fq_namespace m.kernel_namespaces
  · exact countP_shape m.fq_namespace m.kernel_namespaces

/-- Witness for C5 (amended) at the concrete module `mC5w`. -/
theorem c5_scope_balance_amended_witness :
    (balancedFrom [] (markers (renderHeader mC5w)) = true
      ∧ (markers (renderHeader mC5w)).countP isOpM
          = (markers (renderHeader mC5w)).countP isClM)
    ∧ (balancedFrom [] (markers (renderSource mC5w cfg2)) = true
      ∧ (markers (renderSource mC5w cfg2)).countP isOpM
          = (markers (renderSource mC5w cfg2)).countP isClM) :=
  c5_scope_balance_amended mC5w cfg2 (by decide) (by decide) (by decide)
    (by decide) (by decide) (by decide) (by decide) (by decide) (by decide)
    (by decide)

/-- C8: when the module declares no fully-qualified root namespace, the
declaration stream contains no scope markers at all, and the definition
markers of the stream are exactly the open/close pairs of the kernel-namespace
blocks — the anonymous root emits no scope-open or scope-close marker around
the artifacts of the module. -/
theorem c8_anonymous_root (m : Module) (cfg : Config)
    (hnone : m.fq_namespace = none)
    (hpre : markerFree m.prelude_comment)
    (hpub : markerFree m.public_includes)
    (hdefs : markerFree m.definitions)
    (hcls : ∀ c ∈ m.classes, markerFree c.declLines)
    (hpriv : markerFree m.private_includes)
    (hasts : ∀ k ∈ m.kernel_namespaces, ∀ a ∈ k.asts, markerFree a)
    (hknames : ∀ k ∈ m.kernel_namespaces, noTrailSpace k.name)
    (hfb : ∀ f ∈ m.functions, markerFree (fnBody f))
    (hmb : ∀ c ∈ m.classes, ∀ mt ∈ c.methods, markerFree (fnBody mt)) :
    markers (renderHeader m) = []
    ∧ markers (renderSource m cfg) = (m.kernel_namespaces.map knsMarkers).flatten := by
  have hfq : ∀ n, m.fq_namespace = some n → noTrailSpace n := by
    intro n hn
    rw [hnone] at hn
    exact absurd hn (by simp)
  have hH := markers_renderHeader m hpre hpub hdefs hcls hfq
  have hS := markers_renderSource m cfg hpre hpriv hasts hknames hfq hfb hmb
  rw [hnone] at hH hS
  simp only [optOpen, optClose, List.nil_append, List.append_nil] at hH hS
  exact ⟨hH, hS⟩

/-- Witness for C8 at the concrete module `mC8`. -/
theorem c8_anonymous_root_witness :
    markers (renderHeader mC8) = []
    ∧ markers (renderSource mC8 cfg2) = (mC8.kernel_namespaces.map knsMarkers).flatten :=
  c8_anonymous_root mC8 cfg2 rfl (by decide) (by decide) (by decide) (by decide)
    (by decide) (by decide) (by decide) (by decide) (by decide)

end PystencilsSfg
